import Mathlib

set_option maxRecDepth 8000

namespace ConnectorsQA

/-- Text is modelled as a list of characters, mirroring Python `str`. -/
abbrev Str := List Char

def txt (s : String) : Str := s.data

/-- Python `str.lower`, applied per character. -/
def lowerStr (s : Str) : Str := s.map Char.toLower

/-- Python `str.lstrip()` with default whitespace. -/
def lstripStr (s : Str) : Str := s.dropWhile Char.isWhitespace

/-- Python `str.strip()` with default whitespace. -/
def stripStr (s : Str) : Str :=
  ((s.dropWhile Char.isWhitespace).reverse.dropWhile Char.isWhitespace).reverse

/-- Python `s.startswith(p)`. -/
def hasPre (p s : Str) : Bool := decide (p <+: s)

/-- Python `s.endswith(p)`. -/
def hasSuf (p s : Str) : Bool := decide (p <:+ s)

/-- Python `p in s` substring test. -/
def hasSub (p s : Str) : Bool := decide (p <:+: s)

/-- Recursion on fuel so the kernel can evaluate; every step consumes at least
one character, so fuel equal to the string length never runs out. -/
def replaceAllGo (p : Str) : Nat → Str → Str
  | _, [] => []
  | 0, s => s
  | fuel + 1, c :: rest =>
    if hasPre p (c :: rest) then replaceAllGo p fuel (rest.drop (p.length - 1))
    else c :: replaceAllGo p fuel rest

/-- Python `s.replace(p, "")`: delete every non-overlapping occurrence of `p`,
scanning left to right. -/
def replaceAll (p s : Str) : Str := replaceAllGo p s.length s

/-- Lexicographic comparison of Python strings by character code point. -/
def ltL : Str → Str → Bool
  | [], [] => false
  | [], _ :: _ => true
  | _ :: _, [] => false
  | a :: as, b :: bs =>
    if a.toNat < b.toNat then true
    else if b.toNat < a.toNat then false
    else ltL as bs

def insDesc (x : Str) : List Str → List Str
  | [] => [x]
  | y :: ys => if ltL y x then x :: y :: ys else y :: insDesc x ys

/-- Python `sorted(keys, reverse=True)` (insertion sort, descending order). -/
def sortDesc (l : List Str) : List Str := l.foldr insDesc []

/-- Splits at the first occurrence of `c`; second component is `none` when `c` is absent. -/
def breakAt (c : Char) : Str → Str × Option Str
  | [] => ([], none)
  | x :: xs =>
    if x = c then ([], some xs)
    else
      let r := breakAt c xs
      (x :: r.1, r.2)

/-- Python `s.split(c)`. -/
def splitOnChar (c : Char) : Str → List Str
  | [] => [[]]
  | x :: xs =>
    let r := splitOnChar c xs
    if x = c then [] :: r
    else
      match r with
      | h :: t => (x :: h) :: t
      | [] => [[x]]

structure SemVer where
  major : Nat
  minor : Nat
  patch : Nat
  pre : Str
  build : Str
deriving DecidableEq

def isDigits (s : Str) : Bool := !s.isEmpty && s.all Char.isDigit

def noLeadZero (s : Str) : Bool :=
  match s with
  | '0' :: _ :: _ => false
  | _ => true

def parseNat (s : Str) : Nat := s.foldl (fun acc c => acc * 10 + (c.toNat - 48)) 0

def numPart (s : Str) : Option Nat :=
  if isDigits s && noLeadZero s then some (parseNat s) else none

/-- Model of the external python-semver library `semver.Version.parse`:
`major.minor.patch` (digits, no leading zeros) with optional `-prerelease`
and `+build` parts; anything else raises ValueError, modelled as `.error`. -/
def semverParse (s : Str) : Except Unit SemVer :=
  let cb := breakAt '+' s
  let cp := breakAt '-' cb.1
  if cb.2 = some [] then .error ()
  else if cp.2 = some [] then .error ()
  else
    match splitOnChar '.' cp.1 with
    | [ma, mi, pa] =>
      match numPart ma, numPart mi, numPart pa with
      | some a, some b, some c => .ok ⟨a, b, c, cp.2.getD [], cb.2.getD []⟩
      | _, _, _ => .error ()
    | _ => .error ()

/-- Model of python-semver Version equality: build metadata is ignored. -/
def svEq (a b : SemVer) : Bool :=
  a.major == b.major && a.minor == b.minor && a.patch == b.patch && a.pre == b.pre

def digitChar (n : Nat) : Char := Char.ofNat (48 + n)

def natToCharsGo : Nat → Nat → Str
  | 0, _ => []
  | fuel + 1, m =>
    if m < 10 then [digitChar m]
    else natToCharsGo fuel (m / 10) ++ [digitChar (m % 10)]

def natToChars (n : Nat) : Str := natToCharsGo (n + 1) n

/-- Python `str(version)` rendering of a semver value. -/
def renderSemver (v : SemVer) : Str :=
  natToChars v.major ++ txt "." ++ natToChars v.minor ++ txt "." ++ natToChars v.patch
    ++ (if v.pre.isEmpty then [] else txt "-" ++ v.pre)
    ++ (if v.build.isEmpty then [] else txt "+" ++ v.build)

/-- Connector implementation language (external `connector_ops` enum). -/
inductive QALanguage
  | python
  | low_code
  | java
deriving DecidableEq

/-- The `.value` string of the `ConnectorLanguage` enum members. -/
def langValue : QALanguage → Str
  | .python => txt "python"
  | .low_code => txt "low-code"
  | .java => txt "java"

/-- Python `language in [ConnectorLanguage.LOW_CODE, ConnectorLanguage.PYTHON]`. -/
def isPyOrLowCode : QALanguage → Bool
  | .python => true
  | .low_code => true
  | .java => false

/-- The fields of the parsed metadata.yaml document that the checks read.
A missing key is `none` (pydash `get` returns None for a missing path);
`breakingChanges` holds the keys of `releases.breakingChanges` in mapping order. -/
structure Metadata where
  mname : Option Str
  license : Option Str
  dockerImageTag : Option Str
  breakingChanges : Option (List Str)
  baseImage : Option Str
  pypiEnabled : Bool
deriving DecidableEq

/-- The fields of the parsed pyproject.toml that the checks read. -/
structure PyProject where
  poetryLicense : Option Str
  poetryVersion : Option Str
deriving DecidableEq

/-- A file under the connector code directory, as seen by the HTTPS check
(`pathlib.Path` accessors `parts`, `name`, `suffix`, `str(path)`, and its text lines). -/
structure SrcFile where
  parts : List Str
  fname : Str
  suffix : Str
  pathText : Str
  lines : List Str
deriving DecidableEq

/-- The observable state of a resolved connector (the external
`connector_ops.utils.Connector` descriptor accessor). `documentation` and
`migrationGuide` are `none` when the path is unset or the file does not exist,
and `some lines` when the file exists with those text lines. -/
structure QAConnector where
  cname : Str
  technicalName : Str
  nameFromMetadata : Str
  version : Str
  language : QALanguage
  metadata : Option Metadata
  documentation : Option (List Str)
  documentationPath : Str
  migrationGuide : Option (List Str)
  migrationGuidePath : Str
  iconExists : Bool
  iconPath : Str
  codeDirectory : List SrcFile
  pyproject : Option PyProject
  poetryLockExists : Bool
  setupPyExists : Bool
  dockerfileExists : Bool
  metadataFileExists : Bool
deriving DecidableEq

/-- Process environment variable names, plus the outcome of the external
metadata validator collaborator (`metadata_service.commands.validate`). -/
structure Env where
  vars : List Str
  validatorExitZero : Bool
  validatorOutput : Str
deriving DecidableEq

inductive CheckStatus
  | passed
  | failed
  | skipped
deriving DecidableEq

structure CheckRes where
  status : CheckStatus
  message : Str
deriving DecidableEq

/-- Python exceptions a check body can raise. -/
inductive QAErr
  | valueError (m : Str)
  | fileNotFound
  | indexError
  | keyError
  | attributeError
deriving DecidableEq

/-- models.Check.create_check_result. -/
def createRes (passed : Bool) (m : Str) : CheckRes :=
  ⟨if passed then .passed else .failed, m⟩

abbrev RunOut := Except QAErr (Option CheckRes)

def okRes (passed : Bool) (m : Str) : RunOut := .ok (some (createRes passed m))

def outStatus : RunOut → Option (Option CheckStatus)
  | .error _ => none
  | .ok none => some none
  | .ok (some r) => some (some r.status)

def outMessage : RunOut → Str
  | .ok (some r) => r.message
  | _ => []

/-- An evaluation that neither raised nor fell through to None. -/
def isOkSome : RunOut → Bool
  | .ok (some _) => true
  | _ => false

/-- checks.CheckVersionFollowsSemver._run. On the all-good path the Python
function body ends without a return statement and yields None, modelled as
`.ok none`. A missing `tool.poetry.version` key raises KeyError, which the
`except ValueError` clause does not catch. -/
def CheckVersionFollowsSemver_run (conn : QAConnector) (_env : Env) : RunOut :=
  match conn.metadata with
  | none => okRes false (txt "Connector version is missing in metadata.yaml")
  | some md =>
    match md.dockerImageTag with
    | none => okRes false (txt "dockerImageTag is missing in metadata.yaml")
    | some tag =>
      match semverParse tag with
      | .error _ =>
        okRes false (txt "Connector version " ++ tag ++ txt " does not follow Semantic Versioning")
      | .ok mv =>
        if isPyOrLowCode conn.language then
          match conn.pyproject with
          | none => .ok none
          | some pp =>
            match pp.poetryVersion with
            | none => .error .keyError
            | some pvs =>
              match semverParse pvs with
              | .error _ =>
                okRes false
                  (txt "Connector version " ++ tag ++ txt " does not follow Semantic Versioning")
              | .ok pv =>
                if svEq mv pv then .ok none
                else
                  okRes false
                    (txt "Connector version in metadata.yaml is " ++ renderSemver mv
                      ++ txt ", but version in pyproject.toml is " ++ renderSemver pv
                      ++ txt ". These two files have to be consistent")
        else .ok none

def upHeader : Str := txt "## Upgrading to "

/-- The version headings of a migration guide, in document order: each line whose
stripped form starts with the heading marker, with every occurrence of the marker
deleted (`stripped_line.replace(expected_version_header_start, "")`). -/
def extractVersions (lines : List Str) : List Str :=
  lines.filterMap (fun l =>
    let s := stripStr l
    if hasPre upHeader s then some (replaceAll upHeader s) else none)

def joinSep (sep : Str) : List Str → Str
  | [] => []
  | [x] => x
  | x :: y :: r => x ++ sep ++ joinSep sep (y :: r)

/-- The dedented incorrect-version-headings failure message of
CheckMigrationGuide._run. -/
def migrationHeadingsMsg (conn : QAConnector) (orderedBC : List Str) : Str :=
  txt "\nMigration guide file for " ++ conn.cname
    ++ txt " has incorrect version headings.\nCheck for missing, extra, or misordered headings, or headers with typos.\nExpected headings: ["
    ++ joinSep (txt ", ") (orderedBC.map (fun v => upHeader ++ v)) ++ txt "]\n"

/-- checks.CheckMigrationGuide._run. An empty migration-guide file raises
IndexError at `migration_guide_content.splitlines()[0]`. -/
def CheckMigrationGuide_run (conn : QAConnector) (_env : Env) : RunOut :=
  let breakingKeys : Option (List Str) :=
    match conn.metadata with
    | none => none
    | some md => md.breakingChanges
  match breakingKeys with
  | none => okRes true (txt "No breaking changes found. A migration guide is not required")
  | some [] => okRes true (txt "No breaking changes found. A migration guide is not required")
  | some (k :: ks) =>
    match conn.migrationGuide with
    | none =>
      okRes false
        (txt "Migration guide file is missing for " ++ conn.cname
          ++ txt ". Please create a migration guide at " ++ conn.migrationGuidePath)
    | some guideLines =>
      let expectedTitle := txt "# " ++ conn.nameFromMetadata ++ txt " Migration Guide"
      match guideLines with
      | [] => .error .indexError
      | firstLine :: _ =>
        if firstLine ≠ expectedTitle then
          okRes false
            (txt "Migration guide file for " ++ conn.technicalName
              ++ txt " does not start with the correct header. Expected " ++ expectedTitle
              ++ txt ", got " ++ firstLine)
        else
          let orderedBC := sortDesc (k :: ks)
          if orderedBC ≠ extractVersions guideLines then
            okRes false (migrationHeadingsMsg conn orderedBC)
          else okRes true (txt "The migration guide is correctly templated")

/-- checks.CheckDocumentationExists._run. -/
def CheckDocumentationExists_run (conn : QAConnector) (_env : Env) : RunOut :=
  match conn.documentation with
  | none =>
    okRes false
      (txt "User facing documentation file " ++ conn.documentationPath
        ++ txt " is missing. Please create it")
  | some _ =>
    okRes true (txt "User facing documentation file " ++ conn.documentationPath ++ txt " exists")

def expectedSections : List Str :=
  [txt "## Prerequisites", txt "## Setup guide", txt "## Supported sync modes",
   txt "## Supported streams", txt "## Changelog"]

def headerErr : Str := txt "The connector name is not used as the main header in the documentation"

def sectionErr (s : Str) : Str :=
  txt "Connector documentation is missing a " ++ stripStr (replaceAll (txt "#") s)
    ++ txt " section"

/-- The tail of CheckDocumentationStructure._run: add one error per expected
section whose lowered text is not one of the lowered documentation lines, then
fail iff any error was collected. -/
def docStructureFinish (errs : List Str) (docLines : List Str) : RunOut :=
  let errs2 := errs ++ expectedSections.filterMap
    (fun s => if lowerStr s ∈ docLines then none else some (sectionErr s))
  if errs2.isEmpty then okRes true (txt "Documentation guidelines are followed")
  else
    okRes false
      (txt "Connector documentation does not follow the guidelines. " ++ joinSep (txt ". ") errs2)

/-- checks.CheckDocumentationStructure._run. A missing documentation file makes
`open` raise; an empty one makes `doc_lines[0]` raise IndexError; a metadata
document without a `name` key makes `self.connector.metadata["name"]` raise
KeyError. The heading rule inspects `doc_lines[0]`, the very first line. -/
def CheckDocumentationStructure_run (conn : QAConnector) (_env : Env) : RunOut :=
  match conn.documentation with
  | none => .error .fileNotFound
  | some rawLines =>
    let docLines := rawLines.map lowerStr
    match docLines with
    | [] => .error .indexError
    | l0 :: _ =>
      let e1 : List Str := if hasPre (txt "# ") l0 then [] else [headerErr]
      match conn.metadata with
      | some md =>
        match md.mname with
        | none => .error .keyError
        | some nm =>
          let e2 : List Str := if stripStr l0 = txt "# " ++ lowerStr nm then [] else [headerErr]
          docStructureFinish (e1 ++ e2) docLines
      | none =>
        let e2 : List Str := if hasPre (txt "# ") l0 then [] else [headerErr]
        docStructureFinish (e1 ++ e2) docLines

/-- checks.CheckChangelogEntry._run. The fold carries the pair
(after_changelog, entry_found) through the document lines in order. -/
def CheckChangelogEntry_run (conn : QAConnector) (_env : Env) : RunOut :=
  match conn.documentation with
  | none =>
    okRes false
      (txt "User facing documentation file " ++ conn.documentationPath
        ++ txt " is missing. Please create it.")
  | some docLines =>
    let st := docLines.foldl
      (fun st line =>
        let after := st.1 || hasSub (txt "# changelog") (lowerStr line)
        (after, st.2 || (after && hasSub conn.version line)))
      (false, false)
    if st.2 then okRes true (txt "Changelog entry found")
    else
      okRes false
        (txt "Changelog entry for version " ++ conn.version
          ++ txt " is missing in the documentation")

/-- checks.CheckConnectorIconIsAvailable._run. -/
def CheckConnectorIconIsAvailable_run (conn : QAConnector) (_env : Env) : RunOut :=
  if conn.iconExists then okRes true (txt "Icon file exists")
  else okRes false (txt "Icon file " ++ conn.iconPath ++ txt " is missing")

def ignoredDirectories : List Str :=
  [txt ".venv", txt "tests", txt "unit_tests", txt "integration_tests", txt "build",
   txt "source-file", txt ".pytest_cache", txt "acceptance_tests_logs", txt ".hypothesis",
   txt ".ruff_cache"]

def ignoredFilePatterns : List Str :=
  [txt "*Test.java", txt "*.jar", txt "*.pyc", txt "*.gz", txt "*.svg",
   txt "expected_records.jsonl", txt "expected_records.json"]

/-- Model of `pathlib.Path.match` for the pattern shapes occurring in
`ignoredFilePatterns`: a literal file name, or a leading `*` followed by a
literal suffix, matched against the file name. -/
def matchesPat (pat nameStr : Str) : Bool :=
  match pat with
  | '*' :: ps => hasSuf ps nameStr
  | _ => pat == nameStr

/-- A file is skipped when a path component is an ignored directory name or the
file name matches an ignored pattern. -/
def fileIgnored (f : SrcFile) : Bool :=
  ignoredDirectories.any (fun d => f.parts.contains d)
    || ignoredFilePatterns.any (fun p => matchesPat p f.fname)

def languageComment (suffix : Str) : Option Str :=
  if suffix == txt ".py" then some (txt "#")
  else if suffix == txt ".yml" then some (txt "#")
  else if suffix == txt ".yaml" then some (txt "#")
  else if suffix == txt ".java" then some (txt "//")
  else if suffix == txt ".md" then some (txt "<!--")
  else none

/-- checks.CheckConnectorUsesHTTPSOnly._line_is_comment. -/
def lineIsComment (suffix line : Str) : Bool :=
  match languageComment suffix with
  | none => false
  | some marker => hasPre marker (lstripStr line)

def ignoreMarker : Str := txt "# ignore-https-check"

/-- Per-line body of CheckConnectorUsesHTTPSOnly._run: the line is lowered, then
comment lines and lines holding the ignore marker are skipped, occurrences of the
allow-listed URL prefix values are deleted, and the line flags its file when
`http://` remains. The allow-list is an unordered Python set; the two deletions
commute on every line, so a fixed order is used here. -/
def lineFlags (suffix line : Str) : Bool :=
  let l := lowerStr line
  if lineIsComment suffix l then false
  else if hasSub ignoreMarker l then false
  else
    hasSub (txt "http://")
      (replaceAll (txt "http://localhost") (replaceAll (txt "http://json-schema.org") l))

def dedupFirstAux : List Str → List Str → List Str
  | _, [] => []
  | seen, x :: xs =>
    if x ∈ seen then dedupFirstAux seen xs
    else x :: dedupFirstAux (x :: seen) xs

/-- The Python set of offending file names, listed in first-flagged order. -/
def filesWithHttp (files : List SrcFile) : List Str :=
  dedupFirstAux []
    ((files.filter (fun f => !fileIgnored f && f.lines.any (lineFlags f.suffix))).map
      SrcFile.pathText)

/-- checks.CheckConnectorUsesHTTPSOnly._run. -/
def CheckConnectorUsesHTTPSOnly_run (conn : QAConnector) (_env : Env) : RunOut :=
  let flagged := filesWithHttp conn.codeDirectory
  if flagged.isEmpty then okRes true (txt "No file with http:// URLs found")
  else
    okRes false
      (txt "The following files have http:// URLs:\n\t- " ++ joinSep (txt "\n\t- ") flagged)

/-- checks.CheckConnectorUsesPoetry._run. The pyproject.toml file exists iff the
parsed `pyproject` field is present. -/
def CheckConnectorUsesPoetry_run (conn : QAConnector) (_env : Env) : RunOut :=
  if conn.pyproject.isNone then okRes false (txt "pyproject.toml file is missing")
  else if !conn.poetryLockExists then okRes false (txt "poetry.lock file is missing")
  else if conn.setupPyExists then
    okRes false (txt "setup.py file exists. Please remove it and use pyproject.toml instead")
  else okRes true (txt "Poetry is used for dependency management")

/-- checks.CheckConnectorUsesPythonBaseImage._run. `if not get(...)` treats both a
missing key and an empty value as falsy. -/
def CheckConnectorUsesPythonBaseImage_run (conn : QAConnector) (_env : Env) : RunOut :=
  if conn.dockerfileExists then
    okRes false
      (txt "Dockerfile file exists. Please remove it and declare the base image in metadata.yaml file with the connectorBuildOptions.baseImage key")
  else
    match conn.metadata with
    | none => okRes false (txt "metadata.yaml file is missing")
    | some md =>
      match md.baseImage with
      | none =>
        okRes false (txt "connectorBuildOptions.baseImage key is missing in metadata.yaml file")
      | some b =>
        if b.isEmpty then
          okRes false (txt "connectorBuildOptions.baseImage key is missing in metadata.yaml file")
        else okRes true (txt "Connector uses the Python connector base image")

def requiredEnvVars : List Str := [txt "DOCKERHUB_USERNAME", txt "DOCKERHUB_PASSWORD"]

/-- checks.ValidateMetadata._run. The loop over the required environment
variables raises ValueError at the first missing one, before any file is
inspected; the external validator outcome is read from `env`. -/
def ValidateMetadata_run (conn : QAConnector) (env : Env) : RunOut :=
  match requiredEnvVars.find? (fun v => !env.vars.contains v) with
  | some v =>
    .error (.valueError (txt "Environment variable " ++ v ++ txt " is required for this check"))
  | none =>
    if !conn.metadataFileExists then okRes false (txt "metadata.yaml file is missing")
    else
      match conn.documentation with
      | none =>
        okRes false
          (txt "User facing documentation file " ++ conn.documentationPath
            ++ txt " is missing. Please create it")
      | some _ =>
        if env.validatorExitZero then okRes true (txt "Metadata file is valid")
        else okRes false (txt "Metadata file is invalid: " ++ env.validatorOutput)

/-- checks.CheckPublishToPyPiIsEnabled._run. -/
def CheckPublishToPyPiIsEnabled_run (conn : QAConnector) (_env : Env) : RunOut :=
  match conn.metadata with
  | none => okRes false (txt "metadata.yaml file is missing")
  | some md =>
    if md.pypiEnabled then okRes true (txt "PyPi publishing is enabled")
    else okRes false (txt "PyPi publishing is not enabled. Please enable it in the metadata file")

def upperStr (s : Str) : Str := s.map Char.toUpper

/-- checks.CheckConnectorLicense._run. When the metadata has no license value,
`metadata_license.upper()` raises AttributeError on None; the walrus guard on
the poetry license treats a missing or empty value as absent. -/
def CheckConnectorLicense_run (conn : QAConnector) (_env : Env) : RunOut :=
  match conn.metadata with
  | none => okRes false (txt "metadata.yaml file is missing")
  | some md =>
    match md.license with
    | none => .error .attributeError
    | some lic =>
      if upperStr lic ∉ ([txt "MIT", txt "ELV2"] : List Str) then
        okRes false
          (txt "Connector is licensed under " ++ lic ++ txt ". Please use MIT or Elv2 license")
      else if isPyOrLowCode conn.language then
        match conn.pyproject with
        | none => okRes true (txt "Connector is licensed under MIT or ELv2 license")
        | some pp =>
          match pp.poetryLicense with
          | none =>
            okRes false (txt "Connector is missing license in pyproject.toml. Please add it")
          | some pl =>
            if pl.isEmpty then
              okRes false (txt "Connector is missing license in pyproject.toml. Please add it")
            else if pl ≠ lic then
              okRes false
                (txt "Connector is licensed under " ++ pl
                  ++ txt " in pyproject.toml, but licensed under " ++ lic
                  ++ txt " in metadata.yaml. These two files have to be consistent")
            else okRes true (txt "Connector is licensed under MIT or ELv2 license")
      else okRes true (txt "Connector is licensed under MIT or ELv2 license")

/-- models.ALL_LANGUAGES. -/
def ALL_LANGUAGES : List QALanguage := [.java, .low_code, .python]

/-- models.Check: the applicable languages and the `_run` body of one check. -/
structure QACheck where
  appliesTo : List QALanguage
  runBody : QAConnector → Env → RunOut

/-- models.Check.run: a skipped result when the connector language is not
applicable, without executing the check body; the body otherwise. -/
def Check_run (k : QACheck) (conn : QAConnector) (env : Env) : RunOut :=
  if conn.language ∈ k.appliesTo then k.runBody conn env
  else
    .ok (some ⟨.skipped,
      txt "Check does not apply to " ++ langValue conn.language ++ txt " connectors"⟩)

/-- The registry from connectors_qa.__init__, in order. -/
def ENABLED_CHECKS : List QACheck :=
  [⟨ALL_LANGUAGES, ValidateMetadata_run⟩,
   ⟨ALL_LANGUAGES, CheckDocumentationExists_run⟩,
   ⟨ALL_LANGUAGES, CheckDocumentationStructure_run⟩,
   ⟨ALL_LANGUAGES, CheckChangelogEntry_run⟩,
   ⟨ALL_LANGUAGES, CheckMigrationGuide_run⟩,
   ⟨ALL_LANGUAGES, CheckConnectorIconIsAvailable_run⟩,
   ⟨ALL_LANGUAGES, CheckConnectorUsesHTTPSOnly_run⟩,
   ⟨[.python, .low_code], CheckConnectorUsesPoetry_run⟩,
   ⟨[.python, .low_code], CheckConnectorUsesPythonBaseImage_run⟩,
   ⟨[.python, .low_code], CheckPublishToPyPiIsEnabled_run⟩,
   ⟨ALL_LANGUAGES, CheckConnectorLicense_run⟩,
   ⟨ALL_LANGUAGES, CheckVersionFollowsSemver_run⟩]

/-- itertools.product(connectors, ENABLED_CHECKS), connector-major. -/
def allPairs (conns : List QAConnector) (checks : List QACheck) :
    List (QAConnector × QACheck) :=
  conns.flatMap (fun c => checks.map (fun k => (c, k)))

/-- The cli.run loop body: run every pair in order, collecting every result; an
exception raised by a check body propagates. -/
def runAllPairs (env : Env) : List (QAConnector × QACheck) → Except QAErr (List (Option CheckRes))
  | [] => .ok []
  | p :: rest => do
    let r ← Check_run p.2 p.1 env
    let rs ← runAllPairs env rest
    .ok (r :: rs)

/-- Reading `check_result.status` over the collected results: a None result (a
check body that returned no CheckResult) raises AttributeError. -/
def collectStatuses : List (Option CheckRes) → Except QAErr (List CheckStatus)
  | [] => .ok []
  | some r :: rest => do
    let rs ← collectStatuses rest
    .ok (r.status :: rs)
  | none :: _ => .error .attributeError

/-- cli.run: evaluate every (connector, check) pair of the Cartesian product,
collect and report every result, then raise ClickException — the overall failure
signal, `true` here — iff the list of failed results is nonempty. -/
def cli_run (conns : List QAConnector) (env : Env) :
    Except QAErr (List (Option CheckRes) × Bool) := do
  let rs ← runAllPairs env (allPairs conns ENABLED_CHECKS)
  let sts ← collectStatuses rs
  .ok (rs, !(sts.filter (fun s => s == CheckStatus.failed)).isEmpty)

/-- utils.remove_strict_encrypt_suffix: `str.replace` deletes every occurrence
of the first suffix the name ends with. -/
def remove_strict_encrypt_suffix (connector_technical_name : Str) : Str :=
  if hasSuf (txt "-strict-encrypt") connector_technical_name then
    replaceAll (txt "-strict-encrypt") connector_technical_name
  else if hasSuf (txt "-secure") connector_technical_name then
    replaceAll (txt "-secure") connector_technical_name
  else connector_technical_name

/-- Modelled from the spec: the first non-blank line of the documentation, the
line the spec says the name-heading rule is evaluated on (the code instead
inspects `doc_lines[0]`). -/
def specFirstNonBlankLine (lines : List Str) : Option Str :=
  lines.find? (fun l => !(stripStr l).isEmpty)

/-- A metadata document with every key absent, for building concrete connectors. -/
def mdBase : Metadata :=
  { mname := none, license := none, dockerImageTag := none, breakingChanges := none,
    baseImage := none, pypiEnabled := false }

/-- A minimal concrete connector, for building concrete test connectors. -/
def baseConn : QAConnector :=
  { cname := txt "source-widget", technicalName := txt "source-widget",
    nameFromMetadata := txt "Widget", version := txt "1.0.0", language := .python,
    metadata := none, documentation := none,
    documentationPath := txt "docs/integrations/sources/widget.md",
    migrationGuide := none,
    migrationGuidePath := txt "docs/integrations/sources/widget-migrations.md",
    iconExists := false, iconPath := txt "icon.svg", codeDirectory := [],
    pyproject := none, poetryLockExists := false, setupPyExists := false,
    dockerfileExists := false, metadataFileExists := false }

def env0 : Env := { vars := [], validatorExitZero := true, validatorOutput := [] }

/-- The version-check scenario the spec claims passes: metadata tag and poetry
version both 1.2.3. -/
def c1ConnEqual : QAConnector :=
  { baseConn with
    metadata := some { mdBase with dockerImageTag := some (txt "1.2.3") },
    pyproject := some { poetryLicense := none, poetryVersion := some (txt "1.2.3") } }

def c1ConnMismatch : QAConnector :=
  { baseConn with
    metadata := some { mdBase with dockerImageTag := some (txt "1.2.3") },
    pyproject := some { poetryLicense := none, poetryVersion := some (txt "1.2.4") } }

def c1ConnBadTag : QAConnector :=
  { baseConn with metadata := some { mdBase with dockerImageTag := some (txt "abc") } }

/-- The six possible mapping orders of the breaking-change key set
used by the C5 scenario. -/
def perms3 : List (List Str) :=
  [[txt "3.0.0", txt "2.0.0", txt "1.0.0"],
   [txt "3.0.0", txt "1.0.0", txt "2.0.0"],
   [txt "2.0.0", txt "3.0.0", txt "1.0.0"],
   [txt "2.0.0", txt "1.0.0", txt "3.0.0"],
   [txt "1.0.0", txt "3.0.0", txt "2.0.0"],
   [txt "1.0.0", txt "2.0.0", txt "3.0.0"]]

/-- The two possible mapping orders of the breaking-change key set used by the
C9 scenario. -/
def perms2 : List (List Str) :=
  [[txt "10.0.0", txt "9.0.0"], [txt "9.0.0", txt "10.0.0"]]

def c5Conn : QAConnector :=
  { baseConn with
    metadata := some { mdBase with
      breakingChanges := some [txt "2.0.0", txt "1.0.0", txt "3.0.0"] },
    migrationGuide := some
      [txt "# Widget Migration Guide", txt "## Upgrading to 3.0.0", txt "move the flag",
       txt "## Upgrading to 2.0.0", txt "rename the field", txt "## Upgrading to 1.0.0"] }

def c9Conn : QAConnector :=
  { baseConn with
    metadata := some { mdBase with
      breakingChanges := some [txt "10.0.0", txt "9.0.0"] },
    migrationGuide := some
      [txt "# Widget Migration Guide", txt "## Upgrading to 9.0.0", txt "rotate the key",
       txt "## Upgrading to 10.0.0"] }

/-- A documentation body whose first line is blank and whose first non-blank
line is a correct name heading, with every required section present. -/
def c7DocLines : List Str :=
  [txt "", txt "# widget", txt "## Prerequisites", txt "## Setup guide",
   txt "## Supported sync modes", txt "## Supported streams", txt "## Changelog"]

def c7Conn : QAConnector :=
  { baseConn with
    metadata := some { mdBase with mname := some (txt "Widget") },
    documentation := some c7DocLines }

/-- A connector on which every registry check produces a CheckResult: the Java
language skips the three Python-only checks, and the unparseable version tag
makes the version check take its failed branch instead of falling through. -/
def c4Conn : QAConnector :=
  { baseConn with
    language := .java,
    metadata := some
      { mdBase with
        mname := some (txt "Widget"),
        license := some (txt "MIT"),
        dockerImageTag := some (txt "abc") },
    documentation := some [txt "# widget"],
    metadataFileExists := true }

def c4Env : Env :=
  { vars := [txt "DOCKERHUB_USERNAME", txt "DOCKERHUB_PASSWORD"],
    validatorExitZero := true, validatorOutput := [] }

def c6File : SrcFile :=
  { parts := [txt "source-widget", txt "main.py"], fname := txt "main.py",
    suffix := txt ".py", pathText := txt "source-widget/main.py",
    lines := [txt "x = 1", txt "http://example.com"] }

def c6Conn : QAConnector := { baseConn with codeDirectory := [c6File] }

def c6JsonFile : SrcFile :=
  { parts := [txt "schema.json"], fname := txt "schema.json", suffix := txt ".json",
    pathText := txt "schema.json",
    lines := [txt "\"$schema\": \"http://json-schema.org/draft-07/schema#\""] }

def c6PassConn : QAConnector := { baseConn with codeDirectory := [c6JsonFile] }

/-- C1: version-conformance check. The two failing scenarios behave as claimed
(mismatching manifest version fails; a non-semver tag fails with an
invalid-semver message), but in the all-good scenario the check returns no
CheckResult at all: the Python `_run` body has no success return statement and
falls through to None, so no passed result is produced. -/
theorem c1_version_check_evaluation :
    CheckVersionFollowsSemver_run c1ConnEqual env0 = .ok none
      ∧ outStatus (CheckVersionFollowsSemver_run c1ConnMismatch env0) = some (some .failed)
      ∧ outStatus (CheckVersionFollowsSemver_run c1ConnBadTag env0) = some (some .failed)
      ∧ hasSub (txt "does not follow Semantic Versioning")
          (outMessage (CheckVersionFollowsSemver_run c1ConnBadTag env0)) = true :=
  ⟨rfl, by decide, by decide, by decide⟩

/-- C8: when either required credential variable is missing from the process
environment, running ValidateMetadata raises ValueError for every connector and
every file-system state (the error is independent of every connector field, so
it happens before any file inspection), instead of returning a CheckResult. -/
theorem c8_validate_metadata_env_guard (conn : QAConnector) (env : Env)
    (h : txt "DOCKERHUB_USERNAME" ∉ env.vars ∨ txt "DOCKERHUB_PASSWORD" ∉ env.vars) :
    ∃ m, Check_run ⟨ALL_LANGUAGES, ValidateMetadata_run⟩ conn env = .error (.valueError m) := by
  have hlang : conn.language ∈ ALL_LANGUAGES := by
    cases conn.language <;> simp [ALL_LANGUAGES]
  simp only [Check_run, if_pos hlang]
  by_cases hcu : txt "DOCKERHUB_USERNAME" ∈ env.vars
  · rcases h with hu | hp
    · exact absurd hcu hu
    · exact ⟨txt "Environment variable "
        ++ (txt "DOCKERHUB_PASSWORD" ++ txt " is required for this check"),
        by simp [ValidateMetadata_run, requiredEnvVars, List.find?, hcu, hp]⟩
  · exact ⟨txt "Environment variable "
      ++ (txt "DOCKERHUB_USERNAME" ++ txt " is required for this check"),
      by simp [ValidateMetadata_run, requiredEnvVars, List.find?, hcu]⟩

/-- C8 witness: with an empty environment the check raises for a concrete
connector. -/
theorem c8_validate_metadata_env_guard_witness :
    ∃ m, Check_run ⟨ALL_LANGUAGES, ValidateMetadata_run⟩ baseConn env0
      = .error (.valueError m) :=
  c8_validate_metadata_env_guard baseConn env0 (Or.inl (by simp [env0]))

/-- C10: connector-name normalization. A name ending in neither suffix is
returned unchanged; a name ending in one of the two suffixes has every
occurrence of that suffix deleted (Python `str.replace`), not only the trailing
one, as the concrete example source-secure-db-secure shows. -/
theorem c10_remove_strict_encrypt_suffix :
    (∀ n : Str, hasSuf (txt "-strict-encrypt") n = false → hasSuf (txt "-secure") n = false →
      remove_strict_encrypt_suffix n = n)
      ∧ (∀ n : Str, hasSuf (txt "-strict-encrypt") n = true →
        remove_strict_encrypt_suffix n = replaceAll (txt "-strict-encrypt") n)
      ∧ (∀ n : Str, hasSuf (txt "-strict-encrypt") n = false →
        hasSuf (txt "-secure") n = true →
        remove_strict_encrypt_suffix n = replaceAll (txt "-secure") n)
      ∧ remove_strict_encrypt_suffix (txt "source-secure-db-secure") = txt "source-db" := by
  refine ⟨?_, ?_, ?_, by decide⟩
  · intro n h1 h2; simp [remove_strict_encrypt_suffix, h1, h2]
  · intro n h1; simp [remove_strict_encrypt_suffix, h1]
  · intro n h1 h2; simp [remove_strict_encrypt_suffix, h1, h2]

/-- C10 witness: the theorem applied at concrete names. -/
theorem c10_remove_strict_encrypt_suffix_witness :
    remove_strict_encrypt_suffix (txt "source-faker") = txt "source-faker"
      ∧ remove_strict_encrypt_suffix (txt "source-mysql-strict-encrypt")
        = replaceAll (txt "-strict-encrypt") (txt "source-mysql-strict-encrypt") :=
  ⟨c10_remove_strict_encrypt_suffix.1 (txt "source-faker") (by decide) (by decide),
   c10_remove_strict_encrypt_suffix.2.1 (txt "source-mysql-strict-encrypt") (by decide)⟩

/-- C2 counterexample: the documentation-structure check run through the check
dispatcher on a connector whose documentation file is absent propagates a
FileNotFoundError instead of returning a CheckResult. -/
theorem c2_totality_counterexample :
    Check_run ⟨ALL_LANGUAGES, CheckDocumentationStructure_run⟩ baseConn env0
      = .error .fileNotFound := rfl

/-- C2 amended: checks are not all total. The documentation-structure check
raises on a missing or empty documentation file, the license check raises when
metadata declares no license, and the migration-guide check raises on an empty
guide file; but malformed input a check explicitly handles — an invalid
semantic version — does yield a failed result with an explanatory message. -/
theorem c2_totality_amended :
    (∀ (conn : QAConnector) (env : Env), conn.documentation = none →
      CheckDocumentationStructure_run conn env = .error .fileNotFound)
      ∧ (∀ (conn : QAConnector) (env : Env), conn.documentation = some [] →
        CheckDocumentationStructure_run conn env = .error .indexError)
      ∧ (∀ (conn : QAConnector) (md : Metadata) (env : Env), conn.metadata = some md →
        md.license = none → CheckConnectorLicense_run conn env = .error .attributeError)
      ∧ (∀ (conn : QAConnector) (md : Metadata) (k : Str) (ks : List Str) (env : Env),
        conn.metadata = some md → md.breakingChanges = some (k :: ks) →
        conn.migrationGuide = some [] → CheckMigrationGuide_run conn env = .error .indexError)
      ∧ (∀ (conn : QAConnector) (md : Metadata) (tag : Str) (env : Env),
        conn.metadata = some md → md.dockerImageTag = some tag →
        semverParse tag = .error () →
        outStatus (CheckVersionFollowsSemver_run conn env) = some (some .failed)
          ∧ hasSub (txt "does not follow Semantic Versioning")
            (outMessage (CheckVersionFollowsSemver_run conn env)) = true) := by
  refine ⟨?_, ?_, ?_, ?_, ?_⟩
  · intro conn env h; simp [CheckDocumentationStructure_run, h]
  · intro conn env h; simp [CheckDocumentationStructure_run, h]
  · intro conn md env h hl; simp [CheckConnectorLicense_run, h, hl]
  · intro conn md k ks env h hb hg; simp [CheckMigrationGuide_run, h, hb, hg]
  · intro conn md tag env h ht hp
    simp only [CheckVersionFollowsSemver_run, h, ht, hp]
    constructor
    · simp [outStatus, okRes, createRes]
    · simp only [outMessage, okRes, createRes]
      refine decide_eq_true ?_
      refine ⟨txt "Connector version " ++ tag ++ [' '], [], ?_⟩
      simp [txt]

/-- C2 amended witness: the amended theorem applied at concrete connectors. -/
theorem c2_totality_amended_witness :
    CheckDocumentationStructure_run baseConn env0 = .error .fileNotFound
      ∧ CheckConnectorLicense_run
        { baseConn with metadata := some mdBase } env0 = .error .attributeError :=
  ⟨c2_totality_amended.1 baseConn env0 rfl,
   c2_totality_amended.2.2.1 _ mdBase env0 rfl rfl⟩

/-- C5: migration-guide check with breaking-change key set 3.0.0, 2.0.0, 1.0.0
in any mapping order, an existing guide, and a correct title line: the result is
passed exactly when the Upgrading-to headings, in document order, read
3.0.0, 2.0.0, 1.0.0, and failed for every other heading sequence. -/
theorem c5_migration_guide_heading_order (conn : QAConnector) (md : Metadata)
    (keys : List Str) (guide : List Str) (env : Env)
    (hmd : conn.metadata = some md)
    (hbc : md.breakingChanges = some keys)
    (hkeys : keys ∈ perms3)
    (hguide : conn.migrationGuide = some guide)
    (hhead : guide.head? = some (txt "# " ++ conn.nameFromMetadata ++ txt " Migration Guide")) :
    ∃ st m, CheckMigrationGuide_run conn env = .ok (some ⟨st, m⟩)
      ∧ (st = .passed ↔ extractVersions guide = [txt "3.0.0", txt "2.0.0", txt "1.0.0"])
      ∧ (st = .failed ↔ extractVersions guide ≠ [txt "3.0.0", txt "2.0.0", txt "1.0.0"]) := by
  rcases guide with _ | ⟨g0, gs⟩
  · simp at hhead
  · have hg0 : g0 = txt "# " ++ conn.nameFromMetadata ++ txt " Migration Guide" := by
      simpa using hhead
    subst hg0
    simp only [perms3, List.mem_cons, List.not_mem_nil, or_false] at hkeys
    rcases hkeys with h | h | h | h | h | h <;> subst h <;>
    · simp only [CheckMigrationGuide_run, hmd, hbc, hguide]
      rw [if_neg (by simp)]
      by_cases hx : extractVersions
          ((txt "# " ++ conn.nameFromMetadata ++ txt " Migration Guide") :: gs)
          = [txt "3.0.0", txt "2.0.0", txt "1.0.0"]
      · rw [if_neg (by rw [hx]; decide)]
        exact ⟨.passed, txt "The migration guide is correctly templated", rfl,
          ⟨fun _ => hx, fun _ => rfl⟩, ⟨fun h => (nomatch h), fun hn => absurd hx hn⟩⟩
      · rw [if_pos (by rw [show sortDesc _ = [txt "3.0.0", txt "2.0.0", txt "1.0.0"]
          from by decide]; exact Ne.symm hx)]
        exact ⟨.failed, _, rfl, ⟨fun h => (nomatch h), fun he => absurd he hx⟩,
          ⟨fun _ => hx, fun _ => rfl⟩⟩

/-- C5 witness: a concrete connector with mapping order 2.0.0, 1.0.0, 3.0.0 and
a guide whose headings read 3.0.0, 2.0.0, 1.0.0. -/
theorem c5_migration_guide_heading_order_witness :
    ∃ st m, CheckMigrationGuide_run c5Conn env0 = .ok (some ⟨st, m⟩)
      ∧ (st = .passed ↔ extractVersions
          [txt "# Widget Migration Guide", txt "## Upgrading to 3.0.0", txt "move the flag",
           txt "## Upgrading to 2.0.0", txt "rename the field", txt "## Upgrading to 1.0.0"]
          = [txt "3.0.0", txt "2.0.0", txt "1.0.0"])
      ∧ (st = .failed ↔ extractVersions
          [txt "# Widget Migration Guide", txt "## Upgrading to 3.0.0", txt "move the flag",
           txt "## Upgrading to 2.0.0", txt "rename the field", txt "## Upgrading to 1.0.0"]
          ≠ [txt "3.0.0", txt "2.0.0", txt "1.0.0"]) :=
  c5_migration_guide_heading_order c5Conn _ _ _ env0 rfl rfl (by decide) rfl rfl

/-- C9: the expected heading order is the key set sorted in descending
lexicographic string order, not numeric semver order: with keys 10.0.0 and
9.0.0 (either mapping order) and a well-formed guide, the result is passed
exactly when the headings read 9.0.0 then 10.0.0. -/
theorem c9_migration_guide_lexicographic_order (conn : QAConnector) (md : Metadata)
    (keys : List Str) (guide : List Str) (env : Env)
    (hmd : conn.metadata = some md)
    (hbc : md.breakingChanges = some keys)
    (hkeys : keys ∈ perms2)
    (hguide : conn.migrationGuide = some guide)
    (hhead : guide.head? = some (txt "# " ++ conn.nameFromMetadata ++ txt " Migration Guide")) :
    ∃ st m, CheckMigrationGuide_run conn env = .ok (some ⟨st, m⟩)
      ∧ (st = .passed ↔ extractVersions guide = [txt "9.0.0", txt "10.0.0"])
      ∧ (st = .failed ↔ extractVersions guide ≠ [txt "9.0.0", txt "10.0.0"]) := by
  rcases guide with _ | ⟨g0, gs⟩
  · simp at hhead
  · have hg0 : g0 = txt "# " ++ conn.nameFromMetadata ++ txt " Migration Guide" := by
      simpa using hhead
    subst hg0
    simp only [perms2, List.mem_cons, List.not_mem_nil, or_false] at hkeys
    rcases hkeys with h | h <;> subst h <;>
    · simp only [CheckMigrationGuide_run, hmd, hbc, hguide]
      rw [if_neg (by simp)]
      by_cases hx : extractVersions
          ((txt "# " ++ conn.nameFromMetadata ++ txt " Migration Guide") :: gs)
          = [txt "9.0.0", txt "10.0.0"]
      · rw [if_neg (by rw [hx]; decide)]
        exact ⟨.passed, txt "The migration guide is correctly templated", rfl,
          ⟨fun _ => hx, fun _ => rfl⟩, ⟨fun h => (nomatch h), fun hn => absurd hx hn⟩⟩
      · rw [if_pos (by rw [show sortDesc _ = [txt "9.0.0", txt "10.0.0"]
          from by decide]; exact Ne.symm hx)]
        exact ⟨.failed, _, rfl, ⟨fun h => (nomatch h), fun he => absurd he hx⟩,
          ⟨fun _ => hx, fun _ => rfl⟩⟩

/-- C9 witness: a concrete connector with keys 10.0.0 and 9.0.0 and a guide
placing 9.0.0 before 10.0.0. -/
theorem c9_migration_guide_lexicographic_order_witness :
    ∃ st m, CheckMigrationGuide_run c9Conn env0 = .ok (some ⟨st, m⟩)
      ∧ (st = .passed ↔ extractVersions
          [txt "# Widget Migration Guide", txt "## Upgrading to 9.0.0", txt "rotate the key",
           txt "## Upgrading to 10.0.0"]
          = [txt "9.0.0", txt "10.0.0"])
      ∧ (st = .failed ↔ extractVersions
          [txt "# Widget Migration Guide", txt "## Upgrading to 9.0.0", txt "rotate the key",
           txt "## Upgrading to 10.0.0"]
          ≠ [txt "9.0.0", txt "10.0.0"]) :=
  c9_migration_guide_lexicographic_order c9Conn _ _ _ env0 rfl rfl (by decide) rfl rfl

/-- Outcome characterization of the shared tail of the documentation-structure
check: it passes exactly when no error was collected before it and every
expected section appears among the lowered documentation lines. -/
theorem docStructureFinish_characterization (errs : List Str) (lines : List Str) :
    ∃ st m, docStructureFinish errs lines = .ok (some ⟨st, m⟩)
      ∧ (st = .passed ∨ st = .failed)
      ∧ (st = .passed ↔ (errs = [] ∧ ∀ s ∈ expectedSections, lowerStr s ∈ lines)) := by
  by_cases h : (errs ++ expectedSections.filterMap
      (fun s => if lowerStr s ∈ lines then none else some (sectionErr s))) = []
  · obtain ⟨he, hf⟩ := List.append_eq_nil.mp h
    refine ⟨.passed, txt "Documentation guidelines are followed", ?_, Or.inl rfl, ?_⟩
    · simp only [docStructureFinish]
      rw [if_pos (by rw [List.isEmpty_iff]; exact h)]
      rfl
    · refine ⟨fun _ => ⟨he, fun s hs => ?_⟩, fun _ => rfl⟩
      have hn := List.filterMap_eq_nil_iff.mp hf s hs
      by_contra hmem
      rw [if_neg hmem] at hn
      cases hn
  · refine ⟨.failed, txt "Connector documentation does not follow the guidelines. "
        ++ joinSep (txt ". ") (errs ++ expectedSections.filterMap
          (fun s => if lowerStr s ∈ lines then none else some (sectionErr s))),
      ?_, Or.inr rfl, ?_⟩
    · simp only [docStructureFinish]
      rw [if_neg (by rw [List.isEmpty_iff]; exact h)]
      rfl
    · refine ⟨fun hc => (nomatch hc), fun hc => ?_⟩
      obtain ⟨he, hm⟩ := hc
      refine absurd ?_ h
      rw [he, List.nil_append, List.filterMap_eq_nil_iff]
      intro s hs
      rw [if_pos (hm s hs)]

/-- C7 counterexample: a documentation whose first non-blank line is the correct
case-insensitive name heading and whose required sections are all present, yet
the check fails, because the code evaluates the heading rule on `doc_lines[0]`,
the literal first line, which is blank here — not on the first non-blank line
the claim states. -/
theorem c7_first_line_counterexample :
    specFirstNonBlankLine c7DocLines = some (txt "# widget")
      ∧ lowerStr (txt "# widget") = txt "# " ++ lowerStr (txt "Widget")
      ∧ expectedSections.all
          (fun s => decide (lowerStr s ∈ c7DocLines.map lowerStr)) = true
      ∧ outStatus (CheckDocumentationStructure_run c7Conn env0) = some (some .failed) :=
  ⟨by decide, by decide, by decide, by decide⟩

/-- C7 amended: for a connector whose documentation file exists and is nonempty
and whose metadata carries a name, the result is passed exactly when the very
first line (not the first non-blank line) starts with a markdown heading marker
and, stripped and lowered, equals the lowered `# <metadata name>`, and every
required section appears as an exact line matched case-insensitively; otherwise
the result is failed. -/
theorem c7_doc_structure_amended (conn : QAConnector) (md : Metadata) (nm : Str)
    (l0 : Str) (rest : List Str) (env : Env)
    (hdoc : conn.documentation = some (l0 :: rest))
    (hmd : conn.metadata = some md)
    (hnm : md.mname = some nm) :
    ∃ st m, CheckDocumentationStructure_run conn env = .ok (some ⟨st, m⟩)
      ∧ (st = .passed ∨ st = .failed)
      ∧ (st = .passed ↔
          (hasPre (txt "# ") (lowerStr l0) = true
            ∧ stripStr (lowerStr l0) = txt "# " ++ lowerStr nm
            ∧ ∀ s ∈ expectedSections, lowerStr s ∈ (l0 :: rest).map lowerStr)) := by
  obtain ⟨st, m, hrun, hor, hiff⟩ := docStructureFinish_characterization
    ((if hasPre (txt "# ") (lowerStr l0) then ([] : List Str) else [headerErr])
      ++ (if stripStr (lowerStr l0) = txt "# " ++ lowerStr nm then ([] : List Str)
        else [headerErr]))
    ((l0 :: rest).map lowerStr)
  refine ⟨st, m, ?_, hor, ?_⟩
  · simp only [CheckDocumentationStructure_run, hdoc, hmd, hnm, List.map_cons]
    exact hrun
  · rw [hiff]
    constructor
    · rintro ⟨he, hm⟩
      obtain ⟨ha, hb⟩ := List.append_eq_nil.mp he
      refine ⟨?_, ?_, hm⟩
      · by_contra h1
        rw [if_neg h1] at ha; cases ha
      · by_contra h2
        rw [if_neg h2] at hb; cases hb
    · rintro ⟨h1, h2, hm⟩
      exact ⟨by rw [if_pos h1, if_pos h2]; rfl, hm⟩

/-- C7 amended witness: the amended theorem applied at the counterexample
connector. -/
theorem c7_doc_structure_amended_witness :
    ∃ st m, CheckDocumentationStructure_run c7Conn env0 = .ok (some ⟨st, m⟩)
      ∧ (st = .passed ∨ st = .failed)
      ∧ (st = .passed ↔
          (hasPre (txt "# ") (lowerStr (txt "")) = true
            ∧ stripStr (lowerStr (txt "")) = txt "# " ++ lowerStr (txt "Widget")
            ∧ ∀ s ∈ expectedSections, lowerStr s ∈
              ((txt "") :: [txt "# widget", txt "## Prerequisites", txt "## Setup guide",
                txt "## Supported sync modes", txt "## Supported streams",
                txt "## Changelog"]).map lowerStr)) :=
  c7_doc_structure_amended c7Conn _ _ _ _ env0 rfl rfl rfl

theorem ValidateMetadata_no_skip (conn : QAConnector) (env : Env) (r : CheckRes)
    (h : ValidateMetadata_run conn env = .ok (some r)) : r.status ≠ .skipped := by
  unfold ValidateMetadata_run at h
  simp only [okRes, createRes] at h
  repeat' split at h
  all_goals simp_all
  all_goals (rw [← h]; simp)

theorem CheckDocumentationExists_no_skip (conn : QAConnector) (env : Env) (r : CheckRes)
    (h : CheckDocumentationExists_run conn env = .ok (some r)) : r.status ≠ .skipped := by
  unfold CheckDocumentationExists_run at h
  simp only [okRes, createRes] at h
  repeat' split at h
  all_goals simp_all
  all_goals (rw [← h]; simp)

theorem docStructureFinish_no_skip (errs : List Str) (lines : List Str) (r : CheckRes)
    (h : docStructureFinish errs lines = .ok (some r)) : r.status ≠ .skipped := by
  obtain ⟨st, m, hrun, hor, _⟩ := docStructureFinish_characterization errs lines
  rw [hrun] at h
  simp only [Except.ok.injEq, Option.some.injEq] at h
  rw [← h]
  rcases hor with h1 | h1 <;> simp [h1]

theorem CheckDocumentationStructure_no_skip (conn : QAConnector) (env : Env) (r : CheckRes)
    (h : CheckDocumentationStructure_run conn env = .ok (some r)) : r.status ≠ .skipped := by
  unfold CheckDocumentationStructure_run at h
  cases hdoc : conn.documentation with
  | none => simp [hdoc] at h
  | some gl =>
    simp only [hdoc] at h
    cases hm : List.map lowerStr gl with
    | nil => simp [hm] at h
    | cons l0 tl =>
      simp only [hm] at h
      cases hmd : conn.metadata with
      | none =>
        simp only [hmd] at h
        exact docStructureFinish_no_skip _ _ _ h
      | some md =>
        simp only [hmd] at h
        cases hnm : md.mname with
        | none => simp [hnm] at h
        | some nm =>
          simp only [hnm] at h
          exact docStructureFinish_no_skip _ _ _ h

theorem CheckChangelogEntry_no_skip (conn : QAConnector) (env : Env) (r : CheckRes)
    (h : CheckChangelogEntry_run conn env = .ok (some r)) : r.status ≠ .skipped := by
  unfold CheckChangelogEntry_run at h
  simp only [okRes, createRes] at h
  repeat' split at h
  all_goals simp_all
  all_goals (rw [← h]; simp)

theorem CheckMigrationGuide_no_skip (conn : QAConnector) (env : Env) (r : CheckRes)
    (h : CheckMigrationGuide_run conn env = .ok (some r)) : r.status ≠ .skipped := by
  unfold CheckMigrationGuide_run at h
  simp only [okRes, createRes] at h
  repeat' split at h
  all_goals simp_all
  all_goals (rw [← h]; simp)

theorem CheckConnectorIconIsAvailable_no_skip (conn : QAConnector) (env : Env) (r : CheckRes)
    (h : CheckConnectorIconIsAvailable_run conn env = .ok (some r)) : r.status ≠ .skipped := by
  unfold CheckConnectorIconIsAvailable_run at h
  simp only [okRes, createRes] at h
  repeat' split at h
  all_goals simp_all
  all_goals (rw [← h]; simp)

theorem CheckConnectorUsesHTTPSOnly_no_skip (conn : QAConnector) (env : Env) (r : CheckRes)
    (h : CheckConnectorUsesHTTPSOnly_run conn env = .ok (some r)) : r.status ≠ .skipped := by
  unfold CheckConnectorUsesHTTPSOnly_run at h
  simp only [okRes, createRes] at h
  repeat' split at h
  all_goals simp_all
  all_goals (rw [← h]; simp)

theorem CheckConnectorUsesPoetry_no_skip (conn : QAConnector) (env : Env) (r : CheckRes)
    (h : CheckConnectorUsesPoetry_run conn env = .ok (some r)) : r.status ≠ .skipped := by
  unfold CheckConnectorUsesPoetry_run at h
  simp only [okRes, createRes] at h
  repeat' split at h
  all_goals simp_all
  all_goals (rw [← h]; simp)

theorem CheckConnectorUsesPythonBaseImage_no_skip (conn : QAConnector) (env : Env)
    (r : CheckRes) (h : CheckConnectorUsesPythonBaseImage_run conn env = .ok (some r)) :
    r.status ≠ .skipped := by
  unfold CheckConnectorUsesPythonBaseImage_run at h
  simp only [okRes, createRes] at h
  repeat' split at h
  all_goals simp_all
  all_goals (rw [← h]; simp)

theorem CheckPublishToPyPiIsEnabled_no_skip (conn : QAConnector) (env : Env) (r : CheckRes)
    (h : CheckPublishToPyPiIsEnabled_run conn env = .ok (some r)) : r.status ≠ .skipped := by
  unfold CheckPublishToPyPiIsEnabled_run at h
  simp only [okRes, createRes] at h
  repeat' split at h
  all_goals simp_all
  all_goals (rw [← h]; simp)

theorem CheckConnectorLicense_no_skip (conn : QAConnector) (env : Env) (r : CheckRes)
    (h : CheckConnectorLicense_run conn env = .ok (some r)) : r.status ≠ .skipped := by
  unfold CheckConnectorLicense_run at h
  simp only [okRes, createRes] at h
  repeat' split at h
  all_goals simp_all
  all_goals (rw [← h]; simp)

theorem CheckVersionFollowsSemver_no_skip (conn : QAConnector) (env : Env) (r : CheckRes)
    (h : CheckVersionFollowsSemver_run conn env = .ok (some r)) : r.status ≠ .skipped := by
  unfold CheckVersionFollowsSemver_run at h
  simp only [okRes, createRes] at h
  repeat' split at h
  all_goals simp_all
  all_goals (rw [← h]; simp)

/-- The dispatcher-level skip invariant for a check whose body never produces a
skipped result. -/
theorem skip_iff_general (appl : List QALanguage) (body : QAConnector → Env → RunOut)
    (conn : QAConnector) (env : Env) (r : CheckRes)
    (hbody : ∀ r2, body conn env = .ok (some r2) → r2.status ≠ .skipped)
    (hr : Check_run ⟨appl, body⟩ conn env = .ok (some r)) :
    (r.status = .skipped ↔ conn.language ∉ appl) := by
  by_cases hl : conn.language ∈ appl
  · simp only [Check_run, if_pos hl] at hr
    exact iff_of_false (hbody r hr) (fun hc => hc hl)
  · simp only [Check_run, if_neg hl, Except.ok.injEq, Option.some.injEq] at hr
    rw [← hr]
    exact iff_of_true rfl hl

/-- C3: for every registry check and every connector, a produced CheckResult has
skipped status exactly when the connector language is outside the check's
applicable set; and whenever the language is outside the set, the dispatcher
returns the skipped result for every possible check body, so the evaluation
logic is never consulted. -/
theorem c3_skip_invariant :
    (∀ k ∈ ENABLED_CHECKS, ∀ (conn : QAConnector) (env : Env) (r : CheckRes),
      Check_run k conn env = .ok (some r) →
      (r.status = .skipped ↔ conn.language ∉ k.appliesTo))
      ∧ (∀ (appl : List QALanguage) (body : QAConnector → Env → RunOut)
        (conn : QAConnector) (env : Env), conn.language ∉ appl →
        Check_run ⟨appl, body⟩ conn env = .ok (some ⟨.skipped,
          txt "Check does not apply to " ++ langValue conn.language ++ txt " connectors"⟩)) := by
  constructor
  · intro k hk conn env r hr
    simp only [ENABLED_CHECKS, List.mem_cons, List.not_mem_nil, or_false] at hk
    rcases hk with rfl | rfl | rfl | rfl | rfl | rfl | rfl | rfl | rfl | rfl | rfl | rfl
    · exact skip_iff_general _ _ _ _ _ (fun r2 h2 => ValidateMetadata_no_skip _ _ _ h2) hr
    · exact skip_iff_general _ _ _ _ _
        (fun r2 h2 => CheckDocumentationExists_no_skip _ _ _ h2) hr
    · exact skip_iff_general _ _ _ _ _
        (fun r2 h2 => CheckDocumentationStructure_no_skip _ _ _ h2) hr
    · exact skip_iff_general _ _ _ _ _ (fun r2 h2 => CheckChangelogEntry_no_skip _ _ _ h2) hr
    · exact skip_iff_general _ _ _ _ _ (fun r2 h2 => CheckMigrationGuide_no_skip _ _ _ h2) hr
    · exact skip_iff_general _ _ _ _ _
        (fun r2 h2 => CheckConnectorIconIsAvailable_no_skip _ _ _ h2) hr
    · exact skip_iff_general _ _ _ _ _
        (fun r2 h2 => CheckConnectorUsesHTTPSOnly_no_skip _ _ _ h2) hr
    · exact skip_iff_general _ _ _ _ _
        (fun r2 h2 => CheckConnectorUsesPoetry_no_skip _ _ _ h2) hr
    · exact skip_iff_general _ _ _ _ _
        (fun r2 h2 => CheckConnectorUsesPythonBaseImage_no_skip _ _ _ h2) hr
    · exact skip_iff_general _ _ _ _ _
        (fun r2 h2 => CheckPublishToPyPiIsEnabled_no_skip _ _ _ h2) hr
    · exact skip_iff_general _ _ _ _ _
        (fun r2 h2 => CheckConnectorLicense_no_skip _ _ _ h2) hr
    · exact skip_iff_general _ _ _ _ _
        (fun r2 h2 => CheckVersionFollowsSemver_no_skip _ _ _ h2) hr
  · intro appl body conn env h
    simp [Check_run, h]

/-- C3 witness: the Poetry check on a Java connector is skipped, and the
invariant instance holds there. -/
theorem c3_skip_invariant_witness :
    ((⟨.skipped, txt "Check does not apply to java connectors"⟩ : CheckRes).status = .skipped
      ↔ QALanguage.java ∉
        (⟨[.python, .low_code], CheckConnectorUsesPoetry_run⟩ : QACheck).appliesTo)
      ∧ Check_run ⟨[.python, .low_code], CheckConnectorUsesPoetry_run⟩
        { baseConn with language := .java } env0
        = .ok (some ⟨.skipped,
          txt "Check does not apply to "
            ++ langValue ({ baseConn with language := .java } : QAConnector).language
            ++ txt " connectors"⟩) :=
  ⟨c3_skip_invariant.1 ⟨[.python, .low_code], CheckConnectorUsesPoetry_run⟩
      (by simp [ENABLED_CHECKS]) { baseConn with language := .java } env0
      ⟨.skipped, txt "Check does not apply to java connectors"⟩ (by rfl),
   c3_skip_invariant.2 [.python, .low_code] CheckConnectorUsesPoetry_run
      { baseConn with language := .java } env0 (by decide)⟩

theorem length_allPairs (conns : List QAConnector) (checks : List QACheck) :
    (allPairs conns checks).length = conns.length * checks.length := by
  induction conns with
  | nil => simp [allPairs]
  | cons c cs ih =>
    simp only [allPairs, List.flatMap_cons, List.length_append, List.length_map,
      List.length_cons] at *
    rw [ih]
    ring

theorem mem_allPairs (conns : List QAConnector) (checks : List QACheck)
    (p : QAConnector × QACheck) (hp : p ∈ allPairs conns checks) :
    p.1 ∈ conns ∧ p.2 ∈ checks := by
  simp only [allPairs, List.mem_flatMap, List.mem_map] at hp
  obtain ⟨c, hc, k, hk, rfl⟩ := hp
  exact ⟨hc, hk⟩

theorem isOkSome_iff (x : RunOut) : isOkSome x = true ↔ ∃ r, x = .ok (some r) := by
  cases x with
  | error e => simp [isOkSome]
  | ok o =>
    cases o with
    | none => simp [isOkSome]
    | some r => simp [isOkSome]

theorem runAllPairs_total (pairs : List (QAConnector × QACheck)) (env : Env)
    (h : ∀ p ∈ pairs, isOkSome (Check_run p.2 p.1 env) = true) :
    ∃ rs, runAllPairs env pairs = .ok rs ∧ rs.length = pairs.length
      ∧ ∀ x ∈ rs, ∃ r, x = some r := by
  induction pairs with
  | nil => exact ⟨[], rfl, rfl, by simp⟩
  | cons p rest ih =>
    obtain ⟨r, hr⟩ := (isOkSome_iff _).mp (h p (List.mem_cons_self p rest))
    obtain ⟨rs, h1, h2, h3⟩ := ih (fun q hq => h q (List.mem_cons_of_mem p hq))
    refine ⟨some r :: rs, ?_, by simp [h2], ?_⟩
    · simp only [runAllPairs, hr, h1]
      rfl
    · intro x hx
      rcases List.mem_cons.mp hx with rfl | hx2
      · exact ⟨r, rfl⟩
      · exact h3 x hx2

theorem collectStatuses_ok (rs : List (Option CheckRes))
    (h : ∀ x ∈ rs, ∃ r, x = some r) :
    ∃ sts, collectStatuses rs = .ok sts
      ∧ (CheckStatus.failed ∈ sts ↔ ∃ x ∈ rs, ∃ r, x = some r ∧ r.status = .failed) := by
  induction rs with
  | nil => exact ⟨[], rfl, by simp⟩
  | cons x rest ih =>
    obtain ⟨r, rfl⟩ := h x (List.mem_cons_self x rest)
    obtain ⟨sts, h1, h2⟩ := ih (fun y hy => h y (List.mem_cons_of_mem _ hy))
    refine ⟨r.status :: sts, ?_, ?_⟩
    · simp only [collectStatuses, h1]
      rfl
    · constructor
      · intro hmem
        rcases List.mem_cons.mp hmem with hs | hs
        · exact ⟨some r, List.mem_cons_self _ _, r, rfl, hs.symm⟩
        · obtain ⟨x, hx, r2, hxr, hst⟩ := h2.mp hs
          exact ⟨x, List.mem_cons_of_mem _ hx, r2, hxr, hst⟩
      · rintro ⟨x, hx, r2, hxr, hst⟩
        rcases List.mem_cons.mp hx with rfl | hx2
        · obtain rfl : r = r2 := by injection hxr
          exact List.mem_cons.mpr (Or.inl hst.symm)
        · exact List.mem_cons.mpr (Or.inr (h2.mpr ⟨x, hx2, r2, hxr, hst⟩))

theorem signal_iff (sts : List CheckStatus) :
    ((!(sts.filter (fun s => s == CheckStatus.failed)).isEmpty) = true)
      ↔ CheckStatus.failed ∈ sts := by
  induction sts with
  | nil => simp
  | cons s rest ih =>
    cases s <;> simp [List.filter_cons, ih]

/-- C4: when every (connector, check) pair evaluation produces a CheckResult,
the run collects one result per pair of the full Cartesian product of the
requested connectors with the registry — no short-circuit — and the overall
failure signal is raised if and only if at least one collected result has
failed status. -/
theorem c4_runner_aggregation (conns : List QAConnector) (env : Env)
    (h : ∀ c ∈ conns, ∀ k ∈ ENABLED_CHECKS, isOkSome (Check_run k c env) = true) :
    ∃ rs sig, cli_run conns env = .ok (rs, sig)
      ∧ rs.length = conns.length * ENABLED_CHECKS.length
      ∧ (sig = true ↔ ∃ x ∈ rs, ∃ r, x = some r ∧ r.status = .failed) := by
  have hp : ∀ p ∈ allPairs conns ENABLED_CHECKS, isOkSome (Check_run p.2 p.1 env) = true := by
    intro p hp0
    obtain ⟨h1, h2⟩ := mem_allPairs conns ENABLED_CHECKS p hp0
    exact h p.1 h1 p.2 h2
  obtain ⟨rs, hrs, hlen, hsome⟩ := runAllPairs_total (allPairs conns ENABLED_CHECKS) env hp
  obtain ⟨sts, hsts, hmem⟩ := collectStatuses_ok rs hsome
  refine ⟨rs, !(sts.filter (fun s => s == CheckStatus.failed)).isEmpty, ?_, ?_, ?_⟩
  · have hstep : cli_run conns env
        = collectStatuses rs >>= fun sts =>
          Except.ok (rs, !(sts.filter (fun s => s == CheckStatus.failed)).isEmpty) := by
      unfold cli_run
      rw [hrs]
      rfl
    rw [hstep, hsts]
    rfl
  · rw [hlen, length_allPairs]
  · rw [signal_iff, hmem]

/-- C4 witness: on a single connector for which every check yields a result,
the run returns twelve results with a raised failure signal characterized by a
failed member. -/
theorem c4_runner_aggregation_witness :
    ∃ rs sig, cli_run [c4Conn] c4Env = .ok (rs, sig)
      ∧ rs.length = [c4Conn].length * ENABLED_CHECKS.length
      ∧ (sig = true ↔ ∃ x ∈ rs, ∃ r, x = some r ∧ r.status = .failed) :=
  c4_runner_aggregation [c4Conn] c4Env (by decide)

/-- Every extension either has no comment syntax or one of the three concrete
markers, and the comment test is a prefix test on that marker. -/
theorem lineIsComment_cases (suffix line : Str) :
    lineIsComment suffix line = false
      ∨ ∃ marker, marker ∈ [txt "#", txt "//", txt "<!--"]
        ∧ lineIsComment suffix line = hasPre marker (lstripStr line) := by
  unfold lineIsComment
  cases hlc : languageComment suffix with
  | none => exact Or.inl rfl
  | some marker =>
    refine Or.inr ⟨marker, ?_, rfl⟩
    unfold languageComment at hlc
    repeat' split at hlc
    all_goals first
      | (injection hlc with h; rw [← h]; decide)
      | (injection hlc)

/-- The literal http URL line survives every filter of the HTTPS check,
whatever the file extension. -/
theorem lineFlags_http_example (suffix : Str) :
    lineFlags suffix (txt "http://example.com") = true := by
  unfold lineFlags
  rcases lineIsComment_cases suffix (lowerStr (txt "http://example.com")) with hc |
    ⟨marker, hmem, hc⟩
  · simp only [hc]
    decide
  · simp only [hc]
    fin_cases hmem <;> decide

theorem lineFlags_py_comment (rest : Str) :
    lineFlags (txt ".py") ('#' :: rest) = false := by
  have hl : lowerStr ('#' :: rest) = '#' :: lowerStr rest := by
    simp [lowerStr, show Char.toLower '#' = '#' from by decide]
  have hc : lineIsComment (txt ".py") ('#' :: lowerStr rest) = true := by
    unfold lineIsComment languageComment
    simp only [beq_self_eq_true, if_true]
    unfold lstripStr
    rw [List.dropWhile_cons, if_neg (by decide)]
    exact decide_eq_true ⟨lowerStr rest, rfl⟩
  unfold lineFlags
  simp only [hl, hc]
  simp

theorem mem_dedupFirstAux (l : List Str) (seen : List Str) (x : Str)
    (hx : x ∈ l) (hs : x ∉ seen) : x ∈ dedupFirstAux seen l := by
  induction l generalizing seen with
  | nil => cases hx
  | cons y ys ih =>
    by_cases hxy : x = y
    · subst hxy
      simp only [dedupFirstAux]
      rw [if_neg hs]
      exact List.mem_cons_self _ _
    · have hx2 : x ∈ ys := by
        rcases List.mem_cons.mp hx with h | h
        · exact absurd h hxy
        · exact h
      simp only [dedupFirstAux]
      by_cases hy : y ∈ seen
      · rw [if_pos hy]
        exact ih seen hx2 hs
      · rw [if_neg hy]
        refine List.mem_cons_of_mem _ (ih (y :: seen) hx2 ?_)
        intro hc
        rcases List.mem_cons.mp hc with h | h
        · exact hxy h
        · exact hs h

theorem joinSep_has_member (sep : Str) (l : List Str) (x : Str) (hx : x ∈ l) :
    x <:+: joinSep sep l := by
  induction l with
  | nil => cases hx
  | cons y ys ih =>
    rcases List.mem_cons.mp hx with rfl | h
    · cases ys with
      | nil => exact List.infix_refl x
      | cons z zs =>
        exact ⟨[], sep ++ joinSep sep (z :: zs), by simp [joinSep]⟩
    · cases ys with
      | nil => cases h
      | cons z zs =>
        obtain ⟨s, t, hst⟩ := ih h
        exact ⟨y ++ sep ++ s, t, by
          simp only [joinSep]
          rw [← hst]
          simp [List.append_assoc]⟩

/-- C6: HTTPS-only check. A non-ignored file holding the literal line
http://example.com makes the check fail with a message naming that file; a line
starting with a hash character in a .py file never flags its file; the two
json-schema URL lines never flag their file whatever the extension (so whether
or not the line counts as a comment); and a directory whose non-ignored files
have no flagged line at all passes. -/
theorem c6_https_only_check :
    (∀ (conn : QAConnector) (env : Env) (f : SrcFile), f ∈ conn.codeDirectory →
      fileIgnored f = false → txt "http://example.com" ∈ f.lines →
      ∃ m, CheckConnectorUsesHTTPSOnly_run conn env = .ok (some ⟨.failed, m⟩)
        ∧ hasSub f.pathText m = true)
    ∧ (∀ rest : Str, lineFlags (txt ".py") ('#' :: rest) = false)
    ∧ (∀ suffix : Str,
        lineFlags suffix (txt "\"$schema\": \"http://json-schema.org/draft-07/schema#\"")
          = false
        ∧ lineFlags suffix (txt "# see http://json-schema.org/draft-07/schema") = false)
    ∧ (∀ (conn : QAConnector) (env : Env),
        (∀ f ∈ conn.codeDirectory, fileIgnored f = true
          ∨ ∀ l ∈ f.lines, lineFlags f.suffix l = false) →
        CheckConnectorUsesHTTPSOnly_run conn env
          = .ok (some ⟨.passed, txt "No file with http:// URLs found"⟩)) := by
  refine ⟨?_, lineFlags_py_comment, ?_, ?_⟩
  · intro conn env f hf hig hmem
    have hflag : f.lines.any (lineFlags f.suffix) = true :=
      List.any_eq_true.mpr ⟨_, hmem, lineFlags_http_example f.suffix⟩
    have hfmem : f.pathText ∈ filesWithHttp conn.codeDirectory := by
      unfold filesWithHttp
      refine mem_dedupFirstAux _ [] _ ?_ (by simp)
      exact List.mem_map_of_mem _ (List.mem_filter.mpr ⟨hf, by rw [hig]; simpa using hflag⟩)
    have hne : filesWithHttp conn.codeDirectory ≠ [] := by
      intro hc
      rw [hc] at hfmem
      cases hfmem
    refine ⟨txt "The following files have http:// URLs:\n\t- "
      ++ joinSep (txt "\n\t- ") (filesWithHttp conn.codeDirectory), ?_, ?_⟩
    · unfold CheckConnectorUsesHTTPSOnly_run
      rw [if_neg (by simpa [List.isEmpty_iff] using hne)]
      rfl
    · obtain ⟨s, t, hst⟩ := joinSep_has_member (txt "\n\t- ")
        (filesWithHttp conn.codeDirectory) f.pathText hfmem
      refine decide_eq_true ⟨txt "The following files have http:// URLs:\n\t- " ++ s, t, ?_⟩
      rw [List.append_assoc, List.append_assoc, ← List.append_assoc s, hst]
  · intro suffix
    constructor
    · unfold lineFlags
      rcases lineIsComment_cases suffix
        (lowerStr (txt "\"$schema\": \"http://json-schema.org/draft-07/schema#\"")) with hc |
        ⟨marker, hmem, hc⟩
      · simp only [hc]
        decide
      · simp only [hc]
        fin_cases hmem <;> decide
    · unfold lineFlags
      rcases lineIsComment_cases suffix
        (lowerStr (txt "# see http://json-schema.org/draft-07/schema")) with hc |
        ⟨marker, hmem, hc⟩
      · simp only [hc]
        decide
      · simp only [hc]
        fin_cases hmem <;> decide
  · intro conn env h
    have hnil : filesWithHttp conn.codeDirectory = [] := by
      unfold filesWithHttp
      have hfe : conn.codeDirectory.filter
          (fun f => !fileIgnored f && f.lines.any (lineFlags f.suffix)) = [] := by
        rw [List.filter_eq_nil_iff]
        intro f hf
        rcases h f hf with hig | hlines
        · simp [hig]
        · simp only [Bool.and_eq_true, Bool.not_eq_true', List.any_eq_true,
            not_and, not_exists]
          intro _ l hl
          rw [hlines l hl]
          simp
      rw [hfe]
      rfl
    unfold CheckConnectorUsesHTTPSOnly_run
    rw [hnil]
    rfl

/-- C6 witness: the theorem applied at a directory with the offending file, at a
hash-commented line, at a json file with the schema URL, and at a passing
directory. -/
theorem c6_https_only_check_witness :
    (∃ m, CheckConnectorUsesHTTPSOnly_run c6Conn env0 = .ok (some ⟨.failed, m⟩)
      ∧ hasSub (txt "source-widget/main.py") m = true)
    ∧ lineFlags (txt ".py") ('#' :: txt " http://example.com") = false
    ∧ lineFlags (txt ".json")
        (txt "\"$schema\": \"http://json-schema.org/draft-07/schema#\"") = false
    ∧ CheckConnectorUsesHTTPSOnly_run c6PassConn env0
      = .ok (some ⟨.passed, txt "No file with http:// URLs found"⟩) :=
  ⟨c6_https_only_check.1 c6Conn env0 c6File (by simp [c6Conn]) (by decide) (by decide),
   c6_https_only_check.2.1 (txt " http://example.com"),
   (c6_https_only_check.2.2.1 (txt ".json")).1,
   c6_https_only_check.2.2.2 c6PassConn env0 (by decide)⟩

end ConnectorsQA
